import Mathlib

/-!
Verification of `pageserver/src/tenant/timeline/walreceiver.rs`.

The module contains two components:

* `WalReceiver` — a per-timeline controller with `new` / `start` / `stop` /
  `status`, an atomic `started` flag, and a shared `manager_status` cell
  (an `Arc<RwLock<Option<ConnectionManagerStatus>>>`).  `start` spawns a
  background manager loop that races the global shutdown signal against
  `connection_manager_loop_step` and, on exit, tears down the connection
  manager state and clears the status cell.

* `TaskHandle<E>` — a handle over a spawned task communicating via a tokio
  `watch` channel (latest-value-wins), with `spawn`, `next_task_event` and
  `shutdown`.

The embedding below models the observable state of these components and the
effects they perform.  Concurrency is modelled by explicit interleavings:
the manager loop consumes a list of per-iteration inputs, and the watch
channel is driven by an explicit schedule of send / drop / receive actions.
-/

namespace Walreceiver

/-- The `ConnectionManagerStatus` struct is defined in the (out-of-scope)
`connection_manager` submodule; the controller treats it as an opaque,
clonable payload, so it is modelled as an opaque value. -/
abbrev ConnectionManagerStatus := Nat

/-- Who performs a write to the shared `manager_status` cell. -/
inductive Writer where
  | controller
  | managerLoop
deriving DecidableEq, Repr

/-- Observable effects performed by the controller and the manager loop:
spawning the manager task (`task_mgr::spawn`), writing the shared status
cell, and requesting shutdown of tagged tasks (`task_mgr::shutdown_tasks`). -/
inductive Event where
  | spawnLoop
  | statusWrite (w : Writer) (v : Option ConnectionManagerStatus)
  | shutdownTasks
deriving DecidableEq, Repr

/-- Observable state of a `WalReceiver` controller: the `started` atomic
flag, whether its spawned manager loop is still running, and the contents
of the shared `manager_status` cell. -/
structure SysState where
  started : Bool
  loopRunning : Bool
  managerStatus : Option ConnectionManagerStatus
deriving DecidableEq, Repr

namespace WalReceiver

/-- `WalReceiver::new`: `started` is `false` and the status cell holds
`None`; construction performs no shared-cell writes. -/
def new : SysState × List Event :=
  ({ started := false, loopRunning := false, managerStatus := none }, [])

/-- The freshly constructed controller state. -/
def initState : SysState := new.1

/-- `WalReceiver::start`.  Mirrors the source order of effects:
1. if the `started` flag is set, bail with "Wal receiver is already started";
2. if the weak timeline reference cannot be upgraded (`upgradeOk = false`),
   fail with the "walreceiver start on a dropped timeline" context;
3. otherwise `task_mgr::spawn` the manager loop, and only then store
   `started := true`.
Returns the result, the post state, and the trace of effects performed by
the `start` call itself (the spawned loop's own effects happen later, in
the task, and are modelled by `managerLoop` below). -/
def start (s : SysState) (upgradeOk : Bool) :
    Except String Unit × SysState × List Event :=
  if s.started then
    (Except.error "Wal receiver is already started", s, [])
  else if !upgradeOk then
    (Except.error "walreceiver start on a dropped timeline", s, [])
  else
    (Except.ok (), { s with started := true, loopRunning := true },
      [Event.spawnLoop])

/-- `WalReceiver::stop`: `task_mgr::shutdown_tasks` signals shutdown to the
manager loop (if one is running) and awaits it; the loop's own exit path
(lines 139–141 of the source) tears down and writes `None` to the status
cell — that write is tagged `Writer.managerLoop`, since `stop` itself never
touches the cell.  Afterwards `stop` stores `started := false`. -/
def stop (s : SysState) : SysState × List Event :=
  if s.loopRunning then
    ({ started := false, loopRunning := false, managerStatus := none },
      [Event.shutdownTasks, Event.statusWrite Writer.managerLoop none])
  else
    ({ s with started := false }, [Event.shutdownTasks])

/-- `WalReceiver::status`: a snapshot read of the shared status cell. -/
def status (s : SysState) : Option ConnectionManagerStatus :=
  s.managerStatus

end WalReceiver

/-- Controller states reachable by any interleaving of the controller's
operations and the autonomous actions of its spawned manager loop
(publishing a status during `connection_manager_loop_step`, or exiting on
its own and clearing the cell). -/
inductive Reachable : SysState → Prop where
  | init : Reachable WalReceiver.initState
  | startCall (s : SysState) (u : Bool) :
      Reachable s → Reachable (WalReceiver.start s u).2.1
  | loopPublish (s : SysState) (pub : Option ConnectionManagerStatus) :
      Reachable s → s.loopRunning = true →
      Reachable { s with managerStatus := pub }
  | loopSelfExit (s : SysState) :
      Reachable s → s.loopRunning = true →
      Reachable { s with loopRunning := false, managerStatus := none }
  | stopCall (s : SysState) :
      Reachable s → Reachable (WalReceiver.stop s).1

/-- Invariant of reachable controller states: whenever no manager loop is
running the status cell holds `None` (the loop clears it on every exit
path), and the `started` flag being `false` implies no loop is running. -/
theorem reachable_inv (s : SysState) (h : Reachable s) :
    (s.loopRunning = false → s.managerStatus = none) ∧
    (s.started = false → s.loopRunning = false) := by
  induction h with
  | init => simp [WalReceiver.initState, WalReceiver.new]
  | startCall s u _ ih =>
    unfold WalReceiver.start
    split
    · exact ih
    · split
      · exact ih
      · simp
  | loopPublish s pub _ hrun ih =>
    refine ⟨fun hfalse => ?_, fun hst => ?_⟩
    · exact absurd hfalse (by simp [hrun])
    · exact absurd (ih.2 hst) (by simp [hrun])
  | loopSelfExit s _ hrun ih =>
    simp
  | stopCall s _ ih =>
    unfold WalReceiver.stop
    split
    · simp
    · next hnot =>
      exact ⟨fun _ => ih.1 (by simpa using hnot), fun _ => by simpa using hnot⟩

/-- Result of one `connection_manager_loop_step` call: `ControlFlow::Continue`
or `ControlFlow::Break`. -/
inductive CFlow where
  | cont
  | brk
deriving DecidableEq, Repr

/-- What one iteration of the spawned manager loop observes: either the
`task_mgr::shutdown_watcher()` arm of the `select!` wins, or the
`connection_manager_loop_step` arm completes with a control-flow result,
having published `pub` to the shared status cell during the step. -/
inductive LoopInput where
  | shutdownSignal
  | step (flow : CFlow) (pub : Option ConnectionManagerStatus)
deriving DecidableEq, Repr

/-- The loop-local state: whether `connection_manager_state.shutdown()` has
run, and the shared status cell as seen by the loop. -/
structure LoopState where
  connShutdown : Bool
  statusCell : Option ConnectionManagerStatus
deriving DecidableEq, Repr

/-- The manager loop's exit path (source lines 139–141): await
`connection_manager_state.shutdown()`, then write `None` into the shared
status cell. -/
def loopTeardown (_st : LoopState) : LoopState × List Event :=
  ({ connShutdown := true, statusCell := none },
    [Event.statusWrite Writer.managerLoop none])

/-- The body of the task spawned by `WalReceiver::start` (source lines
112–142), driven by a finite list of iteration inputs.  Observing the
shutdown signal breaks out of the loop; a `Continue` step repeats it; a
`Break` step breaks out.  Every exit goes through `loopTeardown` and then
returns `Ok(())`.  `none` means the supplied inputs did not drive the loop
to an exit. -/
def managerLoop :
    List LoopInput → LoopState →
    Option (Except String Unit × LoopState × List Event)
  | [], _ => none
  | LoopInput.shutdownSignal :: _, st =>
    let (st', tr) := loopTeardown st
    some (Except.ok (), st', tr)
  | LoopInput.step CFlow.cont pub :: rest, st =>
    match managerLoop rest { st with statusCell := pub } with
    | none => none
    | some (r, st', tr) =>
      some (r, st', Event.statusWrite Writer.managerLoop pub :: tr)
  | LoopInput.step CFlow.brk pub :: _, st =>
    let (st', tr) := loopTeardown { st with statusCell := pub }
    some (Except.ok (), st', Event.statusWrite Writer.managerLoop pub :: tr)

/-- A status-cell write performed by the controller itself (as opposed to
by the spawned manager loop). -/
def isControllerWrite : Event → Bool
  | Event.statusWrite Writer.controller _ => true
  | _ => false

/-- Any write to the status cell, by either party. -/
def isStatusWrite : Event → Bool
  | Event.statusWrite _ _ => true
  | _ => false

/-- Number of manager tasks spawned in a trace. -/
def spawnCount (tr : List Event) : Nat :=
  tr.countP (fun e => e == Event.spawnLoop)

/-- Claim C1: once the `started` flag is set, every further `start` call
fails with the "Wal receiver is already started" error before spawning
anything: the state (in particular the one running manager loop) is
unchanged and the trace spawns zero tasks. -/
theorem c1_second_start_fails (s : SysState) (u : Bool) (h : s.started = true) :
    WalReceiver.start s u =
      (Except.error "Wal receiver is already started", s, []) ∧
    spawnCount (WalReceiver.start s u).2.2 = 0 ∧
    (WalReceiver.start s u).2.1.loopRunning = s.loopRunning := by
  simp [WalReceiver.start, h, spawnCount]

/-- Witness for C1 at a concrete started controller. -/
theorem c1_second_start_fails_witness :
    WalReceiver.start
        { started := true, loopRunning := true, managerStatus := none } true =
      (Except.error "Wal receiver is already started",
        { started := true, loopRunning := true, managerStatus := none }, []) :=
  (c1_second_start_fails
    { started := true, loopRunning := true, managerStatus := none } true rfl).1

/-- Claim C2: every failing path of `start` leaves the controller state
unchanged and performs no effect; in particular, when the weak timeline
reference fails to upgrade, `start` returns the "dropped timeline" error
and the `started` flag remains `false` (the flag is only stored after the
spawn, which is never reached). -/
theorem c2_failing_start_leaves_state (s : SysState) :
    (∀ (u : Bool) (msg : String) (st : SysState) (tr : List Event),
       WalReceiver.start s u = (Except.error msg, st, tr) →
       st = s ∧ tr = []) ∧
    (s.started = false →
       WalReceiver.start s false =
         (Except.error "walreceiver start on a dropped timeline", s, []) ∧
       (WalReceiver.start s false).2.1.started = false) := by
  constructor
  · intro u msg st tr heq
    unfold WalReceiver.start at heq
    split at heq
    · simp_all
    · split at heq <;> simp_all
  · intro h
    simp [WalReceiver.start, h]

/-- Witness for C2 at the freshly constructed controller. -/
theorem c2_failing_start_leaves_state_witness :
    WalReceiver.start WalReceiver.initState false =
      (Except.error "walreceiver start on a dropped timeline",
        WalReceiver.initState, []) :=
  ((c2_failing_start_leaves_state WalReceiver.initState).2 rfl).1

/-- Claim C3: for every reachable controller state, once `stop` has
completed, `status` returns `none`. -/
theorem c3_status_none_after_stop (s : SysState) (h : Reachable s) :
    WalReceiver.status (WalReceiver.stop s).1 = none := by
  unfold WalReceiver.stop WalReceiver.status
  split
  · rfl
  · next hnot => exact (reachable_inv s h).1 (by simpa using hnot)

/-- Witness for C3 at the freshly constructed controller. -/
theorem c3_status_none_after_stop_witness :
    WalReceiver.status (WalReceiver.stop WalReceiver.initState).1 = none :=
  c3_status_none_after_stop WalReceiver.initState Reachable.init

/-- Claim C4: `stop` on a reachable controller that is not started is a
no-op: the state is unchanged (flag stays `false`, status stays as it
was) and no write to the status cell occurs. -/
theorem c4_stop_idempotent (s : SysState) (h : Reachable s)
    (hns : s.started = false) :
    (WalReceiver.stop s).1 = s ∧
    (WalReceiver.stop s).2.filter isStatusWrite = [] := by
  have hrun : s.loopRunning = false := (reachable_inv s h).2 hns
  unfold WalReceiver.stop
  rw [if_neg (by simp [hrun])]
  refine ⟨?_, rfl⟩
  cases s with
  | mk st lr ms => simp_all

/-- Witness for C4 at the freshly constructed controller. -/
theorem c4_stop_idempotent_witness :
    (WalReceiver.stop WalReceiver.initState).1 = WalReceiver.initState :=
  (c4_stop_idempotent WalReceiver.initState Reachable.init rfl).1

/-- Claim C8: each iteration of the manager loop races the shutdown signal
against one `connection_manager_loop_step`: the shutdown signal exits the
loop at once, a `Continue` result repeats it, a `Break` result exits it;
and on every exit path the loop has run the connection-manager teardown,
its final status-cell write is the clearing `None` write, and the task
returns `Ok(())`. -/
theorem c8_manager_loop (inputs : List LoopInput) :
    (∀ (st : LoopState) (r : Except String Unit) (st' : LoopState)
       (tr : List Event),
       managerLoop inputs st = some (r, st', tr) →
       r = Except.ok () ∧ st'.connShutdown = true ∧ st'.statusCell = none ∧
       ∃ pre, tr = pre ++ [Event.statusWrite Writer.managerLoop none]) ∧
    (∀ st : LoopState,
       managerLoop (LoopInput.shutdownSignal :: inputs) st =
         some (Except.ok (), { connShutdown := true, statusCell := none },
           [Event.statusWrite Writer.managerLoop none])) ∧
    (∀ (pub : Option ConnectionManagerStatus) (st : LoopState),
       managerLoop (LoopInput.step CFlow.cont pub :: inputs) st =
         (managerLoop inputs { st with statusCell := pub }).map
           (fun out =>
             (out.1, out.2.1,
              Event.statusWrite Writer.managerLoop pub :: out.2.2))) ∧
    (∀ (pub : Option ConnectionManagerStatus) (st : LoopState),
       managerLoop (LoopInput.step CFlow.brk pub :: inputs) st =
         some (Except.ok (), { connShutdown := true, statusCell := none },
           [Event.statusWrite Writer.managerLoop pub,
            Event.statusWrite Writer.managerLoop none])) := by
  refine ⟨?_, ?_, ?_, ?_⟩
  · induction inputs with
    | nil =>
      intro st r st' tr h
      exact absurd h (by simp [managerLoop])
    | cons i rest ih =>
      intro st r st' tr h
      cases i with
      | shutdownSignal =>
        simp only [managerLoop, loopTeardown, Option.some.injEq, Prod.mk.injEq] at h
        obtain ⟨h1, h2, h3⟩ := h
        exact ⟨h1.symm, by simp [← h2], by simp [← h2], [], by simp [← h3]⟩
      | step flow pub =>
        cases flow with
        | cont =>
          simp only [managerLoop] at h
          cases hm : managerLoop rest { st with statusCell := pub } with
          | none => rw [hm] at h; exact absurd h (by simp)
          | some out =>
            obtain ⟨r0, st0, tr0⟩ := out
            rw [hm] at h
            simp only [Option.some.injEq, Prod.mk.injEq] at h
            obtain ⟨h1, h2, h3⟩ := h
            obtain ⟨g1, g2, g3, pre, g4⟩ := ih _ r0 st0 tr0 hm
            refine ⟨h1 ▸ g1, h2 ▸ g2, h2 ▸ g3,
              Event.statusWrite Writer.managerLoop pub :: pre, ?_⟩
            rw [← h3, g4]
            simp
        | brk =>
          simp only [managerLoop, loopTeardown, Option.some.injEq, Prod.mk.injEq] at h
          obtain ⟨h1, h2, h3⟩ := h
          exact ⟨h1.symm, by simp [← h2], by simp [← h2],
            [Event.statusWrite Writer.managerLoop pub], by simp [← h3]⟩
  · intro st; rfl
  · intro pub st
    cases hm : managerLoop inputs { st with statusCell := pub } with
    | none => simp [managerLoop, hm]
    | some out => obtain ⟨r0, st0, tr0⟩ := out; simp [managerLoop, hm]
  · intro pub st; rfl

/-- Witness for C8: the loop driven by a single `Break` step. -/
theorem c8_manager_loop_witness :
    (Except.ok () : Except String Unit) = Except.ok () ∧
    ({ connShutdown := true, statusCell := none } : LoopState).connShutdown
      = true ∧
    ({ connShutdown := true, statusCell := none } : LoopState).statusCell
      = none ∧
    ∃ pre,
      [Event.statusWrite Writer.managerLoop (some 7),
       Event.statusWrite Writer.managerLoop none] =
        pre ++ [Event.statusWrite Writer.managerLoop none] :=
  (c8_manager_loop [LoopInput.step CFlow.brk (some 7)]).1
    { connShutdown := false, statusCell := some 5 }
    (Except.ok ()) { connShutdown := true, statusCell := none }
    [Event.statusWrite Writer.managerLoop (some 7),
     Event.statusWrite Writer.managerLoop none]
    (by simp [managerLoop, loopTeardown])

/-- Claim C10: the controller operations `new`, `start` and `stop` never
themselves write the shared status cell — every status-cell write in any
trace is tagged as performed by the manager loop; `stop` clears the cell
only through the single awaited loop-teardown write. -/
theorem c10_only_loop_writes_status :
    WalReceiver.new.2.filter isControllerWrite = [] ∧
    (∀ (s : SysState) (u : Bool),
       (WalReceiver.start s u).2.2.filter isControllerWrite = []) ∧
    (∀ s : SysState,
       (WalReceiver.stop s).2.filter isControllerWrite = []) ∧
    (∀ (inputs : List LoopInput) (st : LoopState) (r : Except String Unit)
       (st' : LoopState) (tr : List Event),
       managerLoop inputs st = some (r, st', tr) →
       tr.filter isControllerWrite = []) ∧
    (∀ s : SysState, s.loopRunning = true →
       (WalReceiver.stop s).2 =
         [Event.shutdownTasks, Event.statusWrite Writer.managerLoop none]) := by
  refine ⟨rfl, ?_, ?_, ?_, ?_⟩
  · intro s u
    unfold WalReceiver.start
    split
    · rfl
    · split <;> rfl
  · intro s
    unfold WalReceiver.stop
    split <;> rfl
  · intro inputs
    induction inputs with
    | nil =>
      intro st r st' tr h
      exact absurd h (by simp [managerLoop])
    | cons i rest ih =>
      intro st r st' tr h
      cases i with
      | shutdownSignal =>
        simp only [managerLoop, loopTeardown, Option.some.injEq, Prod.mk.injEq] at h
        simp [← h.2.2, isControllerWrite]
      | step flow pub =>
        cases flow with
        | cont =>
          simp only [managerLoop] at h
          cases hm : managerLoop rest { st with statusCell := pub } with
          | none => rw [hm] at h; exact absurd h (by simp)
          | some out =>
            obtain ⟨r0, st0, tr0⟩ := out
            rw [hm] at h
            simp only [Option.some.injEq, Prod.mk.injEq] at h
            have := ih _ r0 st0 tr0 hm
            simp [← h.2.2, isControllerWrite, this]
        | brk =>
          simp only [managerLoop, loopTeardown, Option.some.injEq, Prod.mk.injEq] at h
          simp [← h.2.2, isControllerWrite]
  · intro s hrun
    unfold WalReceiver.stop
    rw [if_pos hrun]

/-- Witness for C10 at a concrete running controller and a one-step loop
trace. -/
theorem c10_only_loop_writes_status_witness :
    [Event.statusWrite Writer.managerLoop none].filter isControllerWrite
      = [] ∧
    (WalReceiver.stop
        { started := true, loopRunning := true, managerStatus := some 3 }).2 =
      [Event.shutdownTasks, Event.statusWrite Writer.managerLoop none] :=
  ⟨c10_only_loop_writes_status.2.2.2.1 [LoopInput.shutdownSignal]
      { connShutdown := false, statusCell := none } (Except.ok ())
      { connShutdown := true, statusCell := none }
      [Event.statusWrite Writer.managerLoop none]
      (by simp [managerLoop, loopTeardown]),
   c10_only_loop_writes_status.2.2.2.2
      { started := true, loopRunning := true, managerStatus := some 3 } rfl⟩

/-! ### TaskHandle and the watch channel -/

/-- `TaskStateUpdate<E>`: either the initial `Started` marker or an
application-defined progress value. -/
inductive TaskStateUpdate (E : Type) where
  | started
  | progress (e : E)
deriving DecidableEq, Repr

/-- `TaskEvent<E>`: an observed state update, or task termination carrying
the task's `anyhow::Result<()>`. -/
inductive TaskEvent (E : Type) where
  | update (u : TaskStateUpdate E)
  | ended (r : Except String Unit)
deriving Repr

/-- A tokio `watch` channel: it stores only the latest value together with
a version counter; a receiver holding `seenVersion = version` has nothing
new to observe.  `senderAlive` records whether the sender half has been
dropped. -/
structure WatchChannel (E : Type) where
  latest : TaskStateUpdate E
  version : Nat
  senderAlive : Bool
deriving Repr

variable {E : Type}

/-- `watch::Sender::send`: overwrite the latest value and bump the version.
After the sender is dropped no further value can be sent. -/
def watchSend (ch : WatchChannel E) (v : TaskStateUpdate E) : WatchChannel E :=
  if ch.senderAlive then
    { ch with latest := v, version := ch.version + 1 }
  else ch

/-- Dropping the sender half of the watch channel. -/
def dropSender (ch : WatchChannel E) : WatchChannel E :=
  { ch with senderAlive := false }

/-- Send a whole list of values in order. -/
def sendAll (ch : WatchChannel E) : List (TaskStateUpdate E) → WatchChannel E
  | [] => ch
  | v :: rest => sendAll (watchSend ch v) rest

/-- Last element of `v :: rest`. -/
def lastOf (v : α) : List α → α
  | [] => v
  | w :: rest => lastOf w rest

/-- The receiver-side state of a `TaskHandle`: whether the join capability
(`join_handle: Option<JoinHandle<…>>`) is still present, and the version of
the last watch value the receiver has marked seen. -/
structure TaskHandle where
  joinPresent : Bool
  seenVersion : Nat
deriving DecidableEq, Repr

namespace TaskHandle

/-- `TaskHandle::next_task_event`, source lines 219–262.  `taskResult` is the
value the spawned future completes with (`jh.await` flattened).
* If the channel holds a value newer than the receiver has seen,
  `changed()` returns `Ok` and the latest value is returned as `Update`.
* Otherwise, if the sender is still alive, `changed()` stays pending — the
  call blocks, modelled as `none`.
* Otherwise `changed()` returns `Err`: if the join capability is present the
  task is joined (consuming the capability) and its result wrapped in `End`;
  if it was already consumed, the synthetic "Task was joined more than once"
  error is returned. -/
def next_task_event (h : TaskHandle) (ch : WatchChannel E)
    (taskResult : Except String Unit) :
    Option (TaskEvent E × TaskHandle) :=
  if h.seenVersion < ch.version then
    some (TaskEvent.update ch.latest, { h with seenVersion := ch.version })
  else if ch.senderAlive then
    none
  else if h.joinPresent then
    some (TaskEvent.ended taskResult, { h with joinPresent := false })
  else
    some (TaskEvent.ended (Except.error "Task was joined more than once"), h)

/-- Terminal result of the spawned task as observed by `shutdown`'s
`jh.await`: `Ok(Ok(()))`, `Ok(Err(e))`, a cancelled `JoinError`, or another
`JoinError`. -/
inductive TaskOutcome where
  | success
  | failure (e : String)
  | cancelled
  | joinError (e : String)
deriving DecidableEq, Repr

/-- Effects performed by `TaskHandle::shutdown`, in order. -/
inductive ShutdownEvent where
  | cancelRequested
  | awaitedCompletion (outcome : TaskOutcome)
deriving DecidableEq, Repr

/-- `TaskHandle::shutdown`, source lines 264–280: if the join capability is
present, cancel the token first, then await the join handle, logging (but
not returning) the outcome; otherwise do nothing.  The returned value is
`()` in all cases. -/
def shutdown (joinPresent : Bool) (outcome : TaskOutcome) :
    Unit × List ShutdownEvent :=
  if joinPresent then
    ((), [ShutdownEvent.cancelRequested,
          ShutdownEvent.awaitedCompletion outcome])
  else
    ((), [])

end TaskHandle

/-- `TaskHandle::spawn`, channel part (source line 200): the channel is
created holding `Started`, at version 0, which the receiver has already
seen. -/
def spawnChannel (E : Type) : WatchChannel E :=
  { latest := TaskStateUpdate.started, version := 0, senderAlive := true }

/-- `TaskHandle::spawn`, handle part (source lines 212–216): the join
capability is present and the initial channel value is marked seen. -/
def spawnHandle : TaskHandle :=
  { joinPresent := true, seenVersion := 0 }

/-- `TaskHandle::spawn`, task part (source lines 203–210): the spawned
future first sends `Started` (line 204), then runs the body, whose sends
are given as a list. -/
def spawnSends (body : List (TaskStateUpdate E)) : List (TaskStateUpdate E) :=
  TaskStateUpdate.started :: body

/-- One scheduler action in an interleaving of the spawned task (sending its
next pending update, or finishing and dropping the sender) with the
observer (calling `next_task_event`). -/
inductive Action where
  | doSend
  | doDrop
  | doRecv
deriving DecidableEq, Repr

/-- State of a run: the task's pending (not yet sent) updates, the channel,
the handle, and the list of events the observer has received so far, in
order. -/
structure RunState (E : Type) where
  pending : List (TaskStateUpdate E)
  ch : WatchChannel E
  h : TaskHandle
  obs : List (TaskEvent E)
deriving Repr

/-- The state right after `TaskHandle::spawn` returns, for a task body that
will send `body`. -/
def runInit (body : List (TaskStateUpdate E)) : RunState E :=
  { pending := spawnSends body, ch := spawnChannel E, h := spawnHandle,
    obs := [] }

/-- Execute one scheduler action.  A `doRecv` that would block (the channel
has no new value and the sender is alive) leaves the state unchanged. -/
def stepRun (taskResult : Except String Unit) (a : Action) (st : RunState E) :
    RunState E :=
  match a with
  | Action.doSend =>
    match st.pending with
    | [] => st
    | v :: rest => { st with pending := rest, ch := watchSend st.ch v }
  | Action.doDrop => { st with ch := dropSender st.ch }
  | Action.doRecv =>
    match TaskHandle.next_task_event st.h st.ch taskResult with
    | none => st
    | some (e, h') => { st with h := h', obs := st.obs ++ [e] }

/-- Execute a whole schedule of actions. -/
def runActs (taskResult : Except String Unit) :
    List Action → RunState E → RunState E
  | [], st => st
  | a :: rest, st => runActs taskResult rest (stepRun taskResult a st)

/-- The events observed by a `next_task_event` caller for a task body
`body` and schedule `acts`. -/
def runObs (taskResult : Except String Unit) (body : List (TaskStateUpdate E))
    (acts : List Action) : List (TaskEvent E) :=
  (runActs taskResult acts (runInit body)).obs

/-- `true` when no `Progress` update is observed before a `Started` update:
the first `Update` event in the list, if any, is `Started`. -/
def noProgressBeforeStarted : List (TaskEvent E) → Bool
  | [] => true
  | TaskEvent.update TaskStateUpdate.started :: _ => true
  | TaskEvent.update (TaskStateUpdate.progress _) :: _ => false
  | TaskEvent.ended _ :: rest => noProgressBeforeStarted rest

/-- Formalisation of claim C5 as stated: for every task body and every
interleaving, the observer never receives a `Progress` update before having
received a `Started` update. -/
def deliversStartedFirst : Prop :=
  ∀ (taskResult : Except String Unit) (body : List (TaskStateUpdate Nat))
    (acts : List Action),
    noProgressBeforeStarted (runObs taskResult body acts) = true

/-- A single scheduler step only ever appends to the observation list. -/
theorem stepRun_obs_mono (r : Except String Unit) (a : Action)
    (st : RunState E) : ∃ t, (stepRun r a st).obs = st.obs ++ t := by
  cases a with
  | doSend =>
    cases hp : st.pending with
    | nil => exact ⟨[], by simp [stepRun, hp]⟩
    | cons v rest => exact ⟨[], by simp [stepRun, hp]⟩
  | doDrop => exact ⟨[], by simp [stepRun]⟩
  | doRecv =>
    cases hn : TaskHandle.next_task_event st.h st.ch r with
    | none => exact ⟨[], by simp [stepRun, hn]⟩
    | some p =>
      obtain ⟨e, h'⟩ := p
      exact ⟨[e], by simp [stepRun, hn]⟩

/-- A whole schedule only ever appends to the observation list. -/
theorem runActs_obs_mono (r : Except String Unit) (acts : List Action)
    (st : RunState E) : ∃ t, (runActs r acts st).obs = st.obs ++ t := by
  induction acts generalizing st with
  | nil => exact ⟨[], by simp [runActs]⟩
  | cons a rest ih =>
    obtain ⟨t1, h1⟩ := stepRun_obs_mono r a st
    obtain ⟨t2, h2⟩ := ih (stepRun r a st)
    refine ⟨t1 ++ t2, ?_⟩
    show (runActs r rest (stepRun r a st)).obs = _
    rw [h2, h1, List.append_assoc]

/-- Claim C5 (counterexample): the claim as stated is false.  With a task
body that sends one progress update, and a schedule in which the observer
first polls after both the initial `Started` send and the progress send,
the observer's first and only received event is the `Progress` update — the
`Started` update was overwritten in the watch channel and is never
delivered. -/
theorem c5_counterexample : ¬ deliversStartedFirst := fun hcl =>
  absurd
    (hcl (Except.ok ()) [TaskStateUpdate.progress 0]
      [Action.doSend, Action.doSend, Action.doRecv])
    (by decide)

/-- Claim C5 (amended): the spawned task always sends the `Started` update
before any other update, and an observer that polls after that first send
and before any later send receives `Started` as its first event; only an
observer that lets later sends overwrite the channel can miss it. -/
theorem c5_started_sent_first (taskResult : Except String Unit)
    (body : List (TaskStateUpdate Nat)) (acts : List Action) :
    spawnSends body = TaskStateUpdate.started :: body ∧
    ∃ restObs,
      runObs taskResult body (Action.doSend :: Action.doRecv :: acts) =
        TaskEvent.update TaskStateUpdate.started :: restObs ∧
      noProgressBeforeStarted
        (TaskEvent.update (TaskStateUpdate.started (E := Nat)) :: restObs)
        = true := by
  refine ⟨rfl, ?_⟩
  obtain ⟨t, ht⟩ := runActs_obs_mono taskResult acts
    (stepRun taskResult Action.doRecv
      (stepRun taskResult Action.doSend (runInit body)))
  refine ⟨t, ?_, rfl⟩
  show (runActs taskResult acts
    (stepRun taskResult Action.doRecv
      (stepRun taskResult Action.doSend (runInit body)))).obs = _
  rw [ht]
  rfl

/-- Receiver-side invariant of every run: the receiver never runs ahead of
the channel version, and once the join capability has been consumed the
sender is dropped and the receiver has seen the final version (so no
further `Update` can be produced). -/
abbrev RunInv (st : RunState E) : Prop :=
  st.h.seenVersion ≤ st.ch.version ∧
  (st.h.joinPresent = false →
    st.ch.senderAlive = false ∧ st.h.seenVersion = st.ch.version)

/-- The state right after `spawn` satisfies the run invariant. -/
theorem runInit_inv (body : List (TaskStateUpdate E)) :
    RunInv (runInit body) :=
  ⟨Nat.le_refl 0, fun hj => by simp [runInit, spawnHandle] at hj⟩

/-- One scheduler step preserves the run invariant. -/
theorem stepRun_inv (r : Except String Unit) (a : Action) (st : RunState E)
    (hinv : RunInv st) : RunInv (stepRun r a st) := by
  obtain ⟨h1, h2⟩ := hinv
  cases a with
  | doSend =>
    cases hp : st.pending with
    | nil =>
      simp only [stepRun, hp]
      exact ⟨h1, h2⟩
    | cons v rest =>
      simp only [stepRun, hp]
      unfold watchSend
      by_cases halive : st.ch.senderAlive = true
      · rw [if_pos halive]
        exact ⟨Nat.le_succ_of_le h1,
          fun hj => absurd (h2 hj).1 (by simp [halive])⟩
      · rw [if_neg halive]
        exact ⟨h1, h2⟩
  | doDrop =>
    exact ⟨h1, fun hj => ⟨rfl, (h2 hj).2⟩⟩
  | doRecv =>
    by_cases hlt : st.h.seenVersion < st.ch.version
    · have hev : TaskHandle.next_task_event st.h st.ch r =
          some (TaskEvent.update st.ch.latest,
            { st.h with seenVersion := st.ch.version }) := by
        simp [TaskHandle.next_task_event, hlt]
      simp only [stepRun, hev]
      exact ⟨Nat.le_refl _, fun hj => ⟨(h2 hj).1, rfl⟩⟩
    · by_cases halive : st.ch.senderAlive = true
      · have hev : TaskHandle.next_task_event st.h st.ch r = none := by
          simp [TaskHandle.next_task_event, hlt, halive]
        simp only [stepRun, hev]
        exact ⟨h1, h2⟩
      · by_cases hjp : st.h.joinPresent = true
        · have hev : TaskHandle.next_task_event st.h st.ch r =
              some (TaskEvent.ended r, { st.h with joinPresent := false }) := by
            simp [TaskHandle.next_task_event, hlt, halive, hjp]
          simp only [stepRun, hev]
          exact ⟨h1, fun _ => ⟨by simpa using halive,
            Nat.le_antisymm h1 (Nat.not_lt.mp hlt)⟩⟩
        · have hev : TaskHandle.next_task_event st.h st.ch r =
              some (TaskEvent.ended
                (Except.error "Task was joined more than once"), st.h) := by
            simp [TaskHandle.next_task_event, hlt, halive, hjp]
          simp only [stepRun, hev]
          exact ⟨h1, h2⟩

/-- Every schedule preserves the run invariant. -/
theorem runActs_inv (r : Except String Unit) (acts : List Action)
    (st : RunState E) (h : RunInv st) : RunInv (runActs r acts st) := by
  induction acts generalizing st with
  | nil => exact h
  | cons a rest ih => exact ih _ (stepRun_inv r a st h)

/-- Claim C6: in any run that has consumed the handle's join capability, a
further `next_task_event` call does not block: it returns an `End` event
carrying the "Task was joined more than once" error and leaves the handle
unchanged. -/
theorem c6_joined_twice (r r' : Except String Unit)
    (body : List (TaskStateUpdate Nat)) (acts : List Action)
    (hjoined : (runActs r acts (runInit body)).h.joinPresent = false) :
    TaskHandle.next_task_event (runActs r acts (runInit body)).h
        (runActs r acts (runInit body)).ch r' =
      some (TaskEvent.ended (Except.error "Task was joined more than once"),
        (runActs r acts (runInit body)).h) := by
  obtain ⟨halive, hseen⟩ :=
    (runActs_inv r acts (runInit body) (runInit_inv body)).2 hjoined
  unfold TaskHandle.next_task_event
  rw [if_neg (by simp [hseen]), if_neg (by simp [halive]),
    if_neg (by simp [hjoined])]

/-- Witness for C6: drop the sender, join once, then call again. -/
theorem c6_joined_twice_witness :
    (runActs (Except.ok ()) [Action.doDrop, Action.doRecv]
        (runInit ([] : List (TaskStateUpdate Nat)))).h.joinPresent = false ∧
    TaskHandle.next_task_event
        (runActs (Except.ok ()) [Action.doDrop, Action.doRecv]
          (runInit ([] : List (TaskStateUpdate Nat)))).h
        (runActs (Except.ok ()) [Action.doDrop, Action.doRecv]
          (runInit ([] : List (TaskStateUpdate Nat)))).ch (Except.ok ()) =
      some (TaskEvent.ended (Except.error "Task was joined more than once"),
        (runActs (Except.ok ()) [Action.doDrop, Action.doRecv]
          (runInit ([] : List (TaskStateUpdate Nat)))).h) :=
  ⟨rfl, c6_joined_twice (Except.ok ()) (Except.ok ()) []
    [Action.doDrop, Action.doRecv] rfl⟩

/-- Claim C7: `shutdown` returns `()` for every join-capability state and
every terminal outcome, including a task that had already completed; when
the join capability is present it signals cancellation first and only then
awaits completion; the outcome is logged, never propagated — the returned
value does not depend on it. -/
theorem c7_shutdown (jp : Bool) (o : TaskHandle.TaskOutcome) :
    (TaskHandle.shutdown jp o).1 = () ∧
    (jp = true →
      (TaskHandle.shutdown jp o).2 =
        [TaskHandle.ShutdownEvent.cancelRequested,
         TaskHandle.ShutdownEvent.awaitedCompletion o]) ∧
    (jp = false → (TaskHandle.shutdown jp o).2 = []) ∧
    (∀ o', (TaskHandle.shutdown jp o).1 = (TaskHandle.shutdown jp o').1) := by
  refine ⟨rfl, fun hj => by simp [TaskHandle.shutdown, hj],
    fun hj => by simp [TaskHandle.shutdown, hj], fun o' => rfl⟩

/-- Witness for C7 on a cancelled task with the join capability present. -/
theorem c7_shutdown_witness :
    (TaskHandle.shutdown true TaskHandle.TaskOutcome.cancelled).2 =
      [TaskHandle.ShutdownEvent.cancelRequested,
       TaskHandle.ShutdownEvent.awaitedCompletion
         TaskHandle.TaskOutcome.cancelled] :=
  (c7_shutdown true TaskHandle.TaskOutcome.cancelled).2.1 rfl

/-- Sending never changes whether the sender is alive. -/
theorem sendAll_senderAlive (ch : WatchChannel E)
    (vs : List (TaskStateUpdate E)) :
    (sendAll ch vs).senderAlive = ch.senderAlive := by
  induction vs generalizing ch with
  | nil => rfl
  | cons v rest ih =>
    show (sendAll (watchSend ch v) rest).senderAlive = _
    rw [ih]
    unfold watchSend
    split <;> rfl

/-- With a live sender, sending `vs` bumps the version by `vs.length`. -/
theorem sendAll_version (vs : List (TaskStateUpdate E)) :
    ∀ ch : WatchChannel E, ch.senderAlive = true →
      (sendAll ch vs).version = ch.version + vs.length := by
  induction vs with
  | nil => intro ch _; rfl
  | cons v rest ih =>
    intro ch halive
    show (sendAll (watchSend ch v) rest).version = _
    rw [ih (watchSend ch v) (by simp [watchSend, halive])]
    simp [watchSend, halive]
    omega

/-- With a live sender, after sending `v :: rest` the channel holds the
last value sent. -/
theorem sendAll_latest (rest : List (TaskStateUpdate E)) :
    ∀ (v : TaskStateUpdate E) (ch : WatchChannel E), ch.senderAlive = true →
      (sendAll ch (v :: rest)).latest = lastOf v rest := by
  induction rest with
  | nil =>
    intro v ch halive
    show (watchSend ch v).latest = _
    simp [watchSend, halive, lastOf]
  | cons w rest ih =>
    intro v ch halive
    show (sendAll (watchSend ch v) (w :: rest)).latest = _
    rw [ih w (watchSend ch v) (by simp [watchSend, halive])]
    rfl

/-- Claim C9: state updates are last-value-wins: whatever nonempty sequence
`v :: rest` of updates the task sends between two observations, the next
`next_task_event` returns exactly the most recently sent value (marking the
whole sequence seen), and a further call with no new sends finds nothing —
the overwritten intermediate updates are never delivered later. -/
theorem c9_last_value_wins (h : TaskHandle) (ch : WatchChannel E)
    (v : TaskStateUpdate E) (rest : List (TaskStateUpdate E))
    (r : Except String Unit) (halive : ch.senderAlive = true)
    (hseen : h.seenVersion ≤ ch.version) :
    TaskHandle.next_task_event h (sendAll ch (v :: rest)) r =
      some (TaskEvent.update (lastOf v rest),
        { h with seenVersion := (sendAll ch (v :: rest)).version }) ∧
    TaskHandle.next_task_event
        { h with seenVersion := (sendAll ch (v :: rest)).version }
        (sendAll ch (v :: rest)) r = none := by
  have hver := sendAll_version (v :: rest) ch halive
  have hlat := sendAll_latest rest v ch halive
  have halive' : (sendAll ch (v :: rest)).senderAlive = true := by
    rw [sendAll_senderAlive]; exact halive
  have hlt : h.seenVersion < (sendAll ch (v :: rest)).version := by
    rw [hver]
    simp only [List.length_cons]
    omega
  constructor
  · unfold TaskHandle.next_task_event
    rw [if_pos hlt, hlat]
  · unfold TaskHandle.next_task_event
    rw [if_neg (by simp), if_pos halive']

/-- Witness for C9: two progress updates sent back to back; the observer
receives only the second. -/
theorem c9_last_value_wins_witness :
    TaskHandle.next_task_event spawnHandle
        (sendAll (spawnChannel Nat)
          [TaskStateUpdate.progress 1, TaskStateUpdate.progress 2])
        (Except.ok ()) =
      some (TaskEvent.update (TaskStateUpdate.progress 2),
        { spawnHandle with
            seenVersion :=
              (sendAll (spawnChannel Nat)
                [TaskStateUpdate.progress 1,
                 TaskStateUpdate.progress 2]).version }) :=
  (c9_last_value_wins spawnHandle (spawnChannel Nat)
    (TaskStateUpdate.progress 1) [TaskStateUpdate.progress 2]
    (Except.ok ()) rfl (Nat.le_refl 0)).1

end Walreceiver
